import Mathlib

/-
Verification of the Home PPR maintenance-tracking app (src/app.py) against its
natural-language specification.  Dates are modelled as integer day numbers
(days since 1970-01-01); the Gregorian calendar conversion used for month
grouping follows the standard civil-calendar arithmetic.
-/

namespace HomePPR

/-- Day number (days since 1970-01-01) of a Gregorian calendar date. -/
def daysFromCivil (y m d : Int) : Int :=
  let y2 := if m ≤ 2 then y - 1 else y
  let era := Int.ediv y2 400
  let yoe := y2 - era * 400
  let mp := if 2 < m then m - 3 else m + 9
  let doy := Int.ediv (153 * mp + 2) 5 + d - 1
  let doe := yoe * 365 + Int.ediv yoe 4 - Int.ediv yoe 100 + doy
  era * 146097 + doe - 719468

/-- Gregorian calendar date (year, month, day) of a day number. -/
def civilFromDays (z0 : Int) : Int × Int × Int :=
  let z := z0 + 719468
  let era := Int.ediv z 146097
  let doe := z - era * 146097
  let yoe := Int.ediv (doe - Int.ediv doe 1460 + Int.ediv doe 36524 - Int.ediv doe 146096) 365
  let y := yoe + era * 400
  let doy := doe - (365 * yoe + Int.ediv yoe 4 - Int.ediv yoe 100)
  let mp := Int.ediv (5 * doy + 2) 153
  let d := doy - Int.ediv (153 * mp + 2) 5 + 1
  let m := if mp < 10 then mp + 3 else mp - 9
  (if m ≤ 2 then y + 1 else y, m, d)

/-- First day of the calendar month containing day number z.  This is the
day-number image of pandas `to_period("M").to_timestamp()` (app.py line 110). -/
def monthFloor (z : Int) : Int :=
  let c := civilFromDays z
  daysFromCivil c.1 c.2.1 1

/-- One equipment record, as it exists in memory after `load_data`
(app.py lines 14-28): `interval_days` has been coerced to an integer and
`last_service_date` parsed to a timestamp or missing (NaT).  Text columns may
be missing (NaN) in the CSV, hence `Option String`. -/
structure Record where
  id : Int
  name : Option String
  model : Option String
  serial : Option String
  last_service_date : Option Int
  interval_days : Int
  consumables : Option String
  notes : Option String
  photo : Option String
  status : String
deriving DecidableEq, Repr

/-- `next_service_date` (app.py lines 34-37): None when the last service date
is missing or the interval is not positive, otherwise last service date plus
`interval_days` days. -/
def nextServiceDate (r : Record) : Option Int :=
  match r.last_service_date with
  | none => none
  | some l => if r.interval_days ≤ 0 then none else some (l + r.interval_days)

/-- A raw numeric CSV cell as seen by `pd.to_numeric(..., errors="coerce")`:
missing, unparseable, or an integer value. -/
inductive RawCell where
  | missing
  | invalid
  | num (n : Int)
deriving DecidableEq, Repr

/-- A raw date CSV cell as seen by `pd.to_datetime(..., errors="coerce")`:
missing, unparseable, or a valid date (as a day number). -/
inductive RawDate where
  | missing
  | invalid
  | date (d : Int)
deriving DecidableEq, Repr

/-- One raw CSV row before type normalisation. -/
structure RawRow where
  id : Int
  name : Option String
  model : Option String
  serial : Option String
  last_service_date : RawDate
  interval_days : RawCell
  consumables : Option String
  notes : Option String
  photo : Option String
  status : String
deriving DecidableEq, Repr

/-- `pd.to_numeric(errors="coerce").fillna(0).astype(int)` on one cell
(app.py line 25): missing and unparseable both become NaN, then 0. -/
def coerceInterval : RawCell → Int
  | .missing => 0
  | .invalid => 0
  | .num n => n

/-- `pd.to_datetime(errors="coerce")` on one cell (app.py line 27): missing
and unparseable both become NaT, i.e. absent. -/
def coerceDate : RawDate → Option Int
  | .missing => none
  | .invalid => none
  | .date d => some d

/-- Type normalisation of one row inside `load_data` (app.py lines 25-27). -/
def loadRow (row : RawRow) : Record :=
  { id := row.id
    name := row.name
    model := row.model
    serial := row.serial
    last_service_date := coerceDate row.last_service_date
    interval_days := coerceInterval row.interval_days
    consumables := row.consumables
    notes := row.notes
    photo := row.photo
    status := row.status }

/-- `load_data` (app.py lines 14-28) applied to the parsed CSV rows.  The
file-initialisation branch and the id back-fill are outside the claims under
study; the per-row type coercion is total, so every row loads. -/
def load_data (rows : List RawRow) : List Record :=
  rows.map loadRow

/-- Boolean infix test on character lists (substring containment). -/
def isInfixB (n : List Char) : List Char → Bool
  | [] => n.isEmpty
  | c :: t => n.isPrefixOf (c :: t) || isInfixB n t

/-- One field's contribution to the search match: pandas
`.str.lower().str.contains(s, na=False)` (app.py lines 62-66) — a missing
field never matches. -/
def fieldContains (s : String) : Option String → Bool
  | none => false
  | some t => isInfixB s.toList t.toLower.toList

/-- The free-text search predicate over the five searched columns
(app.py lines 60-67); the query is lowercased first. -/
def textMatch (search : String) (r : Record) : Bool :=
  let s := search.toLower
  fieldContains s r.name || fieldContains s r.model || fieldContains s r.serial ||
    fieldContains s r.consumables || fieldContains s r.notes

/-- The sidebar-filtered base view (app.py lines 58-67): status must be in the
multiselect, and when the search box is non-empty the text must match. -/
def filteredView (df : List Record) (status_filter : List String) (search : String) :
    List Record :=
  let base := df.filter (fun r => status_filter.contains r.status)
  if search = "" then base else base.filter (textMatch search)

/-- The Upcoming view (app.py lines 70-74): records of the filtered view with
a present next service date d satisfying today ≤ d ≤ today + days_range. -/
def upcomingView (df : List Record) (status_filter : List String) (search : String)
    (today : Int) (days_range : Nat) : List Record :=
  (filteredView df status_filter search).filter fun r =>
    match nextServiceDate r with
    | some d => decide (today ≤ d) && decide (d ≤ today + (days_range : Int))
    | none => false

/-- The Overdue view (app.py lines 75-77): records of the filtered view with
a present next service date strictly before today. -/
def overdueView (df : List Record) (status_filter : List String) (search : String)
    (today : Int) : List Record :=
  (filteredView df status_filter search).filter fun r =>
    match nextServiceDate r with
    | some d => decide (d < today)
    | none => false

/-- Month keys of the chart input (app.py lines 107-110): drop records without
a next service date, truncate the rest to first-of-month. -/
def nextMonths (df : List Record) : List Int :=
  (df.filterMap nextServiceDate).map monthFloor

/-- The monthly aggregation (app.py lines 110-111): group sizes by month key,
ordered chronologically, with only the months that occur. -/
def monthly (df : List Record) : List (Int × Nat) :=
  let ms := nextMonths df
  (List.insertionSort (· ≤ ·) ms.dedup).map fun m => (m, ms.count m)

/-- Whether a record's next service date falls in the month whose first day is
day number m. -/
def inMonth (m : Int) (r : Record) : Bool :=
  match nextServiceDate r with
  | some d => monthFloor d == m
  | none => false

/-- The export tab's recomputation of the next service date (lambda on
app.py line 223): same formula as `next_service_date`. -/
def exportNext (r : Record) : Option Int :=
  match r.last_service_date with
  | none => none
  | some l => if 0 < r.interval_days then some (l + r.interval_days) else none

/-- The export selection (app.py lines 222-226): from the FULL table `df`
(not the filtered view), keep records whose recomputed next date d satisfies
today ≤ d ≤ today + horizon_days. -/
def exportSelect (df : List Record) (today : Int) (horizon_days : Int) : List Record :=
  df.filter fun r =>
    match exportNext r with
    | some d => decide (today ≤ d) && decide (d ≤ today + horizon_days)
    | none => false

/-- Outcome of the export tab (app.py lines 227-252): an informational notice
when no events qualify, otherwise an ICS download built from the selected
records. -/
inductive ExportOutcome where
  | info
  | ics (events : List Record)
deriving DecidableEq, Repr

/-- The export tab (app.py lines 219-252).  It receives the sidebar state
(status filter, search, slider horizon) like every other tab but uses only the
full table, today, and its own `horizon_days` number input. -/
def tab_export (df : List Record) (_status_filter : List String) (_search : String)
    (_days_range : Nat) (today : Int) (horizon_days : Int) : ExportOutcome :=
  let upc := exportSelect df today horizon_days
  if upc = [] then .info else .ics upc

/-- Python str.strip on a character list: drop leading and trailing
whitespace. -/
def stripChars (cs : List Char) : List Char :=
  ((cs.dropWhile Char.isWhitespace).reverse.dropWhile Char.isWhitespace).reverse

/-- Python str.strip, as used on the submitted form fields
(app.py lines 156-162). -/
def strip (s : String) : String :=
  String.mk (stripChars s.data)

/-- Id assignment on Add (app.py line 147):
`(df["id"].max() + 1) if len(df) else 1`. -/
def newId (df : List Record) : Int :=
  match df with
  | [] => 1
  | r :: rs => (rs.map Record.id).foldl max r.id + 1

/-- Photo path construction (app.py lines 148-153): empty when no photo was
uploaded, else "data/images/{new_id}_{filename}". -/
def photoPath (new_id : Int) : Option String → String
  | none => ""
  | some nm => "data/images/" ++ toString new_id ++ "_" ++ nm

/-- The Add form submit handler (app.py lines 146-170): assigns the new id,
builds the full row from the submitted values (text fields stripped), appends it
to the full table and saves.  The returned table is what `save_data` persists.
Note the handler performs no emptiness check on `name`. -/
def addForm (df : List Record) (name model serial : String) (last_service : Int)
    (interval_days : Int) (consumables notes : String) (photo_name : Option String)
    (status : String) : List Record :=
  let new_id := newId df
  df ++ [{ id := new_id
           name := some (strip name)
           model := some (strip model)
           serial := some (strip serial)
           last_service_date := some last_service
           interval_days := interval_days
           consumables := some (strip consumables)
           notes := some (strip notes)
           photo := some (photoPath new_id photo_name)
           status := status }]

/-- The status flip on the archive button (app.py line 190):
`"archived" if row["status"]=="active" else "active"`. -/
def toggleStatus (s : String) : String :=
  if s = "active" then "archived" else "active"

/-- The archive/unarchive button handler (app.py lines 189-193): reads the
first row whose id matches (`.iloc[0]`), flips its status, and writes that one
status value to every row whose id matches. -/
def toggleArchive (df : List Record) (i : Int) : List Record :=
  match df.find? (fun r => r.id == i) with
  | none => df
  | some row =>
      df.map fun r => if r.id == i then { r with status := toggleStatus row.status } else r

/-- The status stored for id i, read back the way the handler reads a row:
first match wins. -/
def statusOf (df : List Record) (i : Int) : Option String :=
  (df.find? (fun r => r.id == i)).map Record.status

/-- A concrete in-memory record used to instantiate the general theorems. -/
def baseRec : Record :=
  { id := 1
    name := some "boiler"
    model := some "B-100"
    serial := some "SN1"
    last_service_date := none
    interval_days := 0
    consumables := some "filter; oil"
    notes := some ""
    photo := none
    status := "active" }

/-- A record with a present last service date and a positive interval. -/
def recDue : Record :=
  { baseRec with last_service_date := some 19905, interval_days := 180 }

/-- A raw CSV row with every cell well formed. -/
def rawBase : RawRow :=
  { id := 1
    name := some "boiler"
    model := some "B-100"
    serial := some "SN1"
    last_service_date := RawDate.date 19905
    interval_days := RawCell.num 180
    consumables := some "filter; oil"
    notes := some ""
    photo := none
    status := "active" }

/-- A raw CSV row carrying a negative interval value, e.g. the cell "-5". -/
def rawNegRow : RawRow :=
  { rawBase with interval_days := RawCell.num (-5) }

/-- A raw CSV row whose interval cell is unparseable and whose date cell is
malformed. -/
def rawBadRow : RawRow :=
  { rawBase with interval_days := RawCell.invalid, last_service_date := RawDate.invalid }

/-- An archived record that is due soon (next service date 0 + 10 = 10). -/
def rArchived : Record :=
  { baseRec with id := 2, last_service_date := some 0, interval_days := 10,
                 status := "archived" }

/-- An active record that is overdue relative to today = 20
(next service date 0 + 5 = 5). -/
def rOverdue : Record :=
  { baseRec with id := 3, last_service_date := some 0, interval_days := 5 }

/-- An active record due at day 10. -/
def rSoon : Record :=
  { baseRec with id := 4, last_service_date := some 0, interval_days := 10 }

/-- A small concrete table mixing active/archived, due/overdue records. -/
def sampleDf : List Record :=
  [recDue, rArchived, rOverdue, rSoon]

/-- A record due on 2024-07-01 (serviced 2024-06-01, interval 30 days). -/
def rJulA : Record :=
  { baseRec with id := 11, last_service_date := some (daysFromCivil 2024 6 1),
                 interval_days := 30 }

/-- A record due on 2024-07-15 (serviced 2024-07-01, interval 14 days). -/
def rJulB : Record :=
  { baseRec with id := 12, last_service_date := some (daysFromCivil 2024 7 1),
                 interval_days := 14 }

/-- A record due on 2024-09-01 (serviced 2024-08-31, interval 1 day). -/
def rSep : Record :=
  { baseRec with id := 13, last_service_date := some (daysFromCivil 2024 8 31),
                 interval_days := 1 }

/-- The aggregation scenario table: two records due in 2024-07, one in
2024-09, listed out of order. -/
def aggDf : List Record :=
  [rSep, rJulA, rJulB]

end HomePPR

namespace HomePPR

/-- C1: for every record, the computed next_service_date is present iff
last_service_date is present and interval_days > 0; when present it equals
last_service_date plus interval_days days, and otherwise it is absent (the
function returns None, it does not raise). -/
theorem next_service_date_spec (r : Record) :
    ((nextServiceDate r).isSome ↔ r.last_service_date.isSome ∧ 0 < r.interval_days) ∧
    (∀ l, r.last_service_date = some l → 0 < r.interval_days →
      nextServiceDate r = some (l + r.interval_days)) ∧
    (r.last_service_date = none ∨ r.interval_days ≤ 0 → nextServiceDate r = none) := by
  refine ⟨?_, ?_, ?_⟩
  · cases hl : r.last_service_date with
    | none => simp [nextServiceDate, hl]
    | some l =>
        simp only [nextServiceDate, hl, Option.isSome_some, true_and]
        by_cases hi : r.interval_days ≤ 0
        · simp [hi]
        · simp [hi]
          omega
  · intro l hl hi
    simp [nextServiceDate, hl, not_le.mpr hi, Int.not_le.mpr hi]
  · intro h
    cases hl : r.last_service_date with
    | none => simp [nextServiceDate, hl]
    | some l =>
        rcases h with h | h
        · rw [hl] at h; cases h
        · simp [nextServiceDate, hl, h]

/-- Witness for C1 at a concrete record: a present date and positive interval
yield the sum. -/
theorem next_service_date_spec_witness :
    nextServiceDate recDue = some (19905 + 180) :=
  (next_service_date_spec recDue).2.1 19905 rfl (by decide)

/-- C4 counterexample: loading a row whose interval cell holds the value -5
yields a record with negative interval_days, so the loaded table violates the
claimed non-negativity invariant. -/
theorem load_interval_nonneg_counterexample :
    ¬ (∀ r ∈ load_data [rawNegRow], 0 ≤ r.interval_days) := by
  decide

/-- C4 (amended): after load every record's interval_days is an integer —
missing or unparseable cells are coerced to 0, but parsed values (including
negative ones) are kept as is — and malformed or missing last_service_date
cells are treated as absent; the per-row coercion is total, so every row
loads and the whole load never fails. -/
theorem load_coercion_spec (row : RawRow) (rows : List RawRow) :
    ((row.interval_days = RawCell.missing ∨ row.interval_days = RawCell.invalid) →
      (loadRow row).interval_days = 0) ∧
    (∀ n, row.interval_days = RawCell.num n → (loadRow row).interval_days = n) ∧
    ((row.last_service_date = RawDate.missing ∨ row.last_service_date = RawDate.invalid) →
      (loadRow row).last_service_date = none) ∧
    (∀ d, row.last_service_date = RawDate.date d → (loadRow row).last_service_date = some d) ∧
    (load_data rows).length = rows.length := by
  refine ⟨?_, ?_, ?_, ?_, ?_⟩
  · rintro (h | h) <;> simp [loadRow, h, coerceInterval]
  · intro n h; simp [loadRow, h, coerceInterval]
  · rintro (h | h) <;> simp [loadRow, h, coerceDate]
  · intro d h; simp [loadRow, h, coerceDate]
  · simp [load_data]

/-- Witness for C4 (amended) at a concrete malformed row: the invalid interval
cell loads as 0 and the malformed date cell loads as absent. -/
theorem load_coercion_spec_witness :
    (loadRow rawBadRow).interval_days = 0 ∧ (loadRow rawBadRow).last_service_date = none :=
  ⟨(load_coercion_spec rawBadRow []).1 (Or.inr rfl),
   (load_coercion_spec rawBadRow []).2.2.1 (Or.inr rfl)⟩

/-- C10: the status flip maps "active" to "archived" and every other string —
including values outside the two-value enum — to "active"; hence the result is
always one of the two enum values. -/
theorem toggle_status_total_spec (s : String) :
    (s = "active" → toggleStatus s = "archived") ∧
    (s ≠ "active" → toggleStatus s = "active") ∧
    (toggleStatus s = "active" ∨ toggleStatus s = "archived") := by
  unfold toggleStatus
  by_cases h : s = "active" <;> simp [h]

/-- Witness for C10 at a concrete out-of-enum status value. -/
theorem toggle_status_total_spec_witness :
    toggleStatus "broken" = "active" :=
  (toggle_status_total_spec "broken").2.1 (by decide)

/-- C3: the Add submit handler performs no emptiness check on the required
name field — submitting the form with an empty name writes a full record
(with empty name) to the table instead of aborting with a validation error. -/
theorem add_empty_name_still_writes :
    addForm [] "" "" "" 19905 30 "" "" none "active" =
      [{ id := 1
         name := some ""
         model := some ""
         serial := some ""
         last_service_date := some 19905
         interval_days := 30
         consumables := some ""
         notes := some ""
         photo := some ""
         status := "active" }] ∧
    (addForm [] "" "" "" 19905 30 "" "" none "active").length = 1 := by
  constructor
  · rfl
  · rfl

/-- Upper-bound property of a left fold with max: the seed and every element
of the list are bounded by the fold. -/
theorem le_foldl_max (xs : List Int) (a : Int) :
    a ≤ xs.foldl max a ∧ ∀ x ∈ xs, x ≤ xs.foldl max a := by
  induction xs generalizing a with
  | nil => simp
  | cons y ys ih =>
      refine ⟨?_, ?_⟩
      · exact le_trans (le_max_left a y) (ih (max a y)).1
      · intro x hx
        rcases List.mem_cons.mp hx with h | h
        · subst h
          exact le_trans (le_max_right a x) (ih (max a x)).1
        · exact (ih (max a y)).2 x h

/-- The left fold with max is the seed or an element of the list. -/
theorem foldl_max_mem (xs : List Int) (a : Int) :
    xs.foldl max a = a ∨ xs.foldl max a ∈ xs := by
  induction xs generalizing a with
  | nil => simp
  | cons y ys ih =>
      rcases ih (max a y) with h | h
      · rcases max_choice a y with hm | hm
        · left; rw [List.foldl_cons, h, hm]
        · right; rw [List.foldl_cons, h, hm]; exact List.mem_cons_self y ys
      · right; exact List.mem_cons_of_mem y h

/-- C6: the id assigned by Add is 1 on an empty table and max(existing id)+1
otherwise (witnessed by: newId-1 is an existing id and an upper bound of all
existing ids); and appending the new row preserves uniqueness of ids. -/
theorem add_id_assignment (df : List Record) (name model serial : String)
    (last_service interval_days : Int) (consumables notes : String)
    (photo_name : Option String) (status : String) :
    (df = [] → newId df = 1) ∧
    (df ≠ [] → (newId df - 1) ∈ df.map Record.id ∧
      ∀ j ∈ df.map Record.id, j ≤ newId df - 1) ∧
    ((df.map Record.id).Nodup →
      ((addForm df name model serial last_service interval_days consumables notes
        photo_name status).map Record.id).Nodup) := by
  have hids : (addForm df name model serial last_service interval_days consumables notes
      photo_name status).map Record.id = df.map Record.id ++ [newId df] := by
    simp [addForm]
  have hub : ∀ j ∈ df.map Record.id, j ≤ newId df - 1 := by
    intro j hj
    match df, hj with
    | r :: rs, hj =>
        have h := le_foldl_max (rs.map Record.id) r.id
        rw [List.map_cons] at hj
        rcases List.mem_cons.mp hj with hcase | hcase
        · subst hcase
          simp only [newId]
          omega
        · have := h.2 j hcase
          simp only [newId]
          omega
  refine ⟨?_, ?_, ?_⟩
  · intro h; subst h; rfl
  · intro h
    refine ⟨?_, hub⟩
    match df, h with
    | r :: rs, _ =>
        have hmem := foldl_max_mem (rs.map Record.id) r.id
        simp only [newId, add_sub_cancel_right]
        rcases hmem with hc | hc
        · rw [hc]; exact List.mem_cons_self _ _
        · exact List.mem_cons_of_mem _ hc
  · intro hnd
    rw [hids, List.nodup_append]
    refine ⟨hnd, List.nodup_singleton _, ?_⟩
    intro j hj hj'
    have := hub j hj
    rcases List.mem_singleton.mp hj' with h
    omega

/-- Witness for C6 at a one-record table: the assigned id is 2 = max(1)+1 and
the id list of the extended table has no duplicates. -/
theorem add_id_assignment_witness :
    ((newId [recDue] - 1) ∈ [recDue].map Record.id ∧
      ∀ j ∈ [recDue].map Record.id, j ≤ newId [recDue] - 1) ∧
    ((addForm [recDue] "new" "" "" 0 30 "" "" none "active").map Record.id).Nodup :=
  ⟨(add_id_assignment [recDue] "new" "" "" 0 30 "" "" none "active").2.1 (by decide),
   (add_id_assignment [recDue] "new" "" "" 0 30 "" "" none "active").2.2 (by decide)⟩

/-- C2: every record of the Upcoming view has a present next service date d
with today ≤ d ≤ today + H; every record of the Overdue view has a present
next service date d with d < today; the two views are disjoint.  In
particular a record without a computable next date is in neither view. -/
theorem upcoming_overdue_spec (df : List Record) (sf : List String) (q : String)
    (today : Int) (H : Nat) :
    (∀ r ∈ upcomingView df sf q today H, ∃ d, nextServiceDate r = some d ∧
      today ≤ d ∧ d ≤ today + (H : Int)) ∧
    (∀ r ∈ overdueView df sf q today, ∃ d, nextServiceDate r = some d ∧ d < today) ∧
    (∀ r, r ∈ upcomingView df sf q today H → r ∉ overdueView df sf q today) := by
  have hup : ∀ r ∈ upcomingView df sf q today H, ∃ d, nextServiceDate r = some d ∧
      today ≤ d ∧ d ≤ today + (H : Int) := by
    intro r hr
    rw [upcomingView, List.mem_filter] at hr
    obtain ⟨-, hb⟩ := hr
    cases hn : nextServiceDate r with
    | none => rw [hn] at hb; cases hb
    | some d =>
        rw [hn] at hb
        simp only [Bool.and_eq_true, decide_eq_true_eq] at hb
        exact ⟨d, rfl, hb.1, hb.2⟩
  have hov : ∀ r ∈ overdueView df sf q today, ∃ d, nextServiceDate r = some d ∧
      d < today := by
    intro r hr
    rw [overdueView, List.mem_filter] at hr
    obtain ⟨-, hb⟩ := hr
    cases hn : nextServiceDate r with
    | none => rw [hn] at hb; cases hb
    | some d =>
        rw [hn] at hb
        simp only [decide_eq_true_eq] at hb
        exact ⟨d, rfl, hb⟩
  refine ⟨hup, hov, ?_⟩
  intro r hr hr'
  obtain ⟨d, hd, hd1, -⟩ := hup r hr
  obtain ⟨d', hd', hd2⟩ := hov r hr'
  rw [hd] at hd'
  cases hd'
  omega

/-- Witness for C2 at a concrete table: the due record rSoon is in Upcoming
for today = 0, H = 30, its date is bounded as claimed, and it is not in
Overdue. -/
theorem upcoming_overdue_spec_witness :
    (∃ d, nextServiceDate rSoon = some d ∧ (0 : Int) ≤ d ∧ d ≤ 0 + ((30 : Nat) : Int)) ∧
    rSoon ∉ overdueView sampleDf ["active"] "" 0 :=
  ⟨(upcoming_overdue_spec sampleDf ["active"] "" 0 30).1 rSoon (by decide),
   (upcoming_overdue_spec sampleDf ["active"] "" 0 30).2.2 rSoon (by decide)⟩

/-- The export tab's recomputed next date (app.py line 223) agrees with the
Schedule Calculator's `next_service_date` (app.py lines 34-37). -/
theorem exportNext_eq_nextServiceDate (r : Record) :
    exportNext r = nextServiceDate r := by
  unfold exportNext nextServiceDate
  cases r.last_service_date with
  | none => rfl
  | some l =>
      dsimp only
      by_cases hi : r.interval_days ≤ 0
      · rw [if_pos hi, if_neg (by omega)]
      · rw [if_neg hi, if_pos (by omega)]

/-- Membership in the export selection (app.py lines 222-226) is equivalent to
membership in the full table together with a next date inside the window. -/
theorem mem_exportSelect (df : List Record) (today horizon_days : Int) (r : Record) :
    r ∈ exportSelect df today horizon_days ↔ r ∈ df ∧ ∃ d,
      nextServiceDate r = some d ∧ today ≤ d ∧ d ≤ today + horizon_days := by
  rw [exportSelect, List.mem_filter]
  constructor
  · rintro ⟨hmem, hb⟩
    refine ⟨hmem, ?_⟩
    cases hn : exportNext r with
    | none => rw [hn] at hb; cases hb
    | some d =>
        rw [hn] at hb
        simp only [Bool.and_eq_true, decide_eq_true_eq] at hb
        exact ⟨d, by rw [← exportNext_eq_nextServiceDate r, hn], hb.1, hb.2⟩
  · rintro ⟨hmem, d, hd, h1, h2⟩
    refine ⟨hmem, ?_⟩
    rw [exportNext_eq_nextServiceDate r, hd]
    simp only [Bool.and_eq_true, decide_eq_true_eq]
    exact ⟨h1, h2⟩

/-- C5: the Calendar Exporter selects exactly the records of the full table
whose computable next service date d satisfies today ≤ d ≤ today + horizon
(its own horizon input, independent of the sidebar state); the recomputed
next date agrees with the Schedule Calculator; and when no record qualifies
the outcome is the informational notice, not an error. -/
theorem export_selection_spec (df : List Record) (sf sf2 : List String) (q q2 : String)
    (dr dr2 : Nat) (today horizon_days : Int) :
    (∀ r, r ∈ exportSelect df today horizon_days ↔ r ∈ df ∧ ∃ d,
      nextServiceDate r = some d ∧ today ≤ d ∧ d ≤ today + horizon_days) ∧
    (∀ r, exportNext r = nextServiceDate r) ∧
    tab_export df sf q dr today horizon_days = tab_export df sf2 q2 dr2 today horizon_days ∧
    (exportSelect df today horizon_days = [] →
      tab_export df sf q dr today horizon_days = ExportOutcome.info) ∧
    (exportSelect df today horizon_days ≠ [] →
      tab_export df sf q dr today horizon_days =
        ExportOutcome.ics (exportSelect df today horizon_days)) := by
  refine ⟨mem_exportSelect df today horizon_days, exportNext_eq_nextServiceDate, rfl, ?_, ?_⟩
  · intro h
    rw [tab_export, h]
    rfl
  · intro h
    rw [tab_export, if_neg h]

/-- Witness for C5 at a concrete table: the archived due record is selected
for export at today = 0, horizon = 30; and on the empty table the export
outcome is the informational notice. -/
theorem export_selection_spec_witness :
    (rArchived ∈ exportSelect sampleDf 0 30 ↔ rArchived ∈ sampleDf ∧ ∃ d,
      nextServiceDate rArchived = some d ∧ (0 : Int) ≤ d ∧ d ≤ 0 + 30) ∧
    tab_export [] ["active"] "" 60 0 30 = ExportOutcome.info :=
  ⟨(export_selection_spec sampleDf ["active"] ["active"] "" "" 60 60 0 30).1 rArchived,
   (export_selection_spec [] ["active"] ["active"] "" "" 60 60 0 30).2.2.2.1 (by decide)⟩

/-- C9: the export selection draws from the full table, not the filtered
view: any record of the table whose next service date lies in the export
window is selected, whatever the sidebar status filter and search say; in
particular the concrete archived record rArchived is exported while being
absent from the sidebar-filtered view restricted to active records. -/
theorem export_ignores_filters (df : List Record) (today h : Int) (r : Record)
    (d : Int) (hmem : r ∈ df) (hnext : nextServiceDate r = some d)
    (h1 : today ≤ d) (h2 : d ≤ today + h) :
    r ∈ exportSelect df today h ∧
    (rArchived ∈ exportSelect sampleDf 0 30 ∧
      rArchived ∉ filteredView sampleDf ["active"] "" ∧
      rArchived.status = "archived") := by
  refine ⟨?_, by decide, by decide, rfl⟩
  exact (mem_exportSelect df today h r).mpr ⟨hmem, d, hnext, h1, h2⟩

/-- Witness for C9 at a concrete input: the overdue-free record rSoon with
next date 10 is in the export selection for today = 0, horizon = 30. -/
theorem export_ignores_filters_witness :
    rSoon ∈ exportSelect sampleDf 0 30 :=
  (export_ignores_filters sampleDf 0 30 rSoon 10 (by decide) (by decide)
    (by decide) (by decide)).1

/-- The archive handler (app.py lines 189-193) leaves the first row matching
the id in place with its status flipped: looking the row up again after the
toggle finds the same row with `toggleStatus` applied. -/
theorem find?_toggleArchive (df : List Record) (i : Int) (row : Record)
    (h : df.find? (fun r => r.id == i) = some row) :
    (toggleArchive df i).find? (fun r => r.id == i) =
      some { row with status := toggleStatus row.status } := by
  unfold toggleArchive
  rw [h]
  have hp : ((fun r : Record => r.id == i) ∘
      (fun r : Record =>
        if r.id == i then { r with status := toggleStatus row.status } else r)) =
      fun r : Record => r.id == i := by
    funext r
    by_cases hc : (r.id == i) = true
    · simp only [Function.comp_apply, if_pos hc]
    · simp only [Function.comp_apply, if_neg hc]
  have hrow : (row.id == i) = true := by
    have h' := List.find?_some h
    exact h'
  rw [List.find?_map _ df, hp, h]
  simp [hrow]
  intro hne
  exact absurd (by simpa using hrow) hne

/-- C7: for the record the archive button reads (the first row with the
targeted id), provided its status is one of the two enum values, one click
flips active to archived and archived to active, and a second click restores
the original status. -/
theorem toggle_archive_involutive (df : List Record) (i : Int) (row : Record)
    (hfind : df.find? (fun r => r.id == i) = some row)
    (henum : row.status = "active" ∨ row.status = "archived") :
    statusOf (toggleArchive df i) i = some (toggleStatus row.status) ∧
    (row.status = "active" → toggleStatus row.status = "archived") ∧
    (row.status = "archived" → toggleStatus row.status = "active") ∧
    statusOf (toggleArchive (toggleArchive df i) i) i = some row.status := by
  have h1 := find?_toggleArchive df i row hfind
  have h2 := find?_toggleArchive (toggleArchive df i) i _ h1
  refine ⟨?_, ?_, ?_, ?_⟩
  · rw [statusOf, h1]
    rfl
  · intro h; rw [h]; rfl
  · intro h; rw [h]; rfl
  · rw [statusOf, h2]
    rcases henum with h | h <;> rw [h] <;> rfl

/-- Witness for C7 at a concrete table: toggling record 4 (active) once
yields archived, toggling twice restores active. -/
theorem toggle_archive_involutive_witness :
    statusOf (toggleArchive sampleDf 4) 4 = some (toggleStatus rSoon.status) ∧
    statusOf (toggleArchive (toggleArchive sampleDf 4) 4) 4 = some rSoon.status :=
  ⟨(toggle_archive_involutive sampleDf 4 rSoon (by decide) (Or.inl rfl)).1,
   (toggle_archive_involutive sampleDf 4 rSoon (by decide) (Or.inl rfl)).2.2.2⟩

/-- The multiset of month keys counts exactly the records whose next service
date falls in the given month. -/
theorem count_nextMonths (df : List Record) (m : Int) :
    (nextMonths df).count m = df.countP (inMonth m) := by
  induction df with
  | nil => rfl
  | cons r rs ih =>
      rw [List.countP_cons]
      cases hn : nextServiceDate r with
      | none =>
          have h1 : nextMonths (r :: rs) = nextMonths rs := by
            simp [nextMonths, List.filterMap_cons, hn]
          have h2 : inMonth m r = false := by simp [inMonth, hn]
          rw [h1, ih, h2]
          simp
      | some d =>
          have h1 : nextMonths (r :: rs) = monthFloor d :: nextMonths rs := by
            simp [nextMonths, List.filterMap_cons, hn]
          have h2 : inMonth m r = (monthFloor d == m) := by simp [inMonth, hn]
          rw [h1, List.count_cons, ih, h2]

/-- C8: the monthly aggregation is strictly chronological in its month keys;
a pair (m, c) occurs in it exactly when c is positive and c is the number of
records whose computable next service date falls in month m (so months with
zero records are omitted); and on the concrete scenario with two records due
in 2024-07 and one in 2024-09 it yields exactly those two buckets, with no
entry for 2024-08. -/
theorem monthly_aggregation_spec :
    (∀ df : List Record, List.Pairwise (· < ·) ((monthly df).map Prod.fst)) ∧
    (∀ (df : List Record) (m : Int) (c : Nat),
      (m, c) ∈ monthly df ↔ 0 < c ∧ c = df.countP (inMonth m)) ∧
    monthly aggDf = [(daysFromCivil 2024 7 1, 2), (daysFromCivil 2024 9 1, 1)] ∧
    daysFromCivil 2024 8 1 ∉ (monthly aggDf).map Prod.fst := by
  refine ⟨?_, ?_, by decide, by decide⟩
  · intro df
    have hmap : (monthly df).map Prod.fst =
        List.insertionSort (· ≤ ·) (nextMonths df).dedup := by
      rw [monthly, List.map_map]
      exact List.map_id _
    rw [hmap]
    have hs : List.Sorted (· ≤ ·) (List.insertionSort (· ≤ ·) (nextMonths df).dedup) :=
      List.sorted_insertionSort _ _
    have hnd : (List.insertionSort (· ≤ ·) (nextMonths df).dedup).Nodup :=
      (List.perm_insertionSort _ _).nodup_iff.mpr (List.nodup_dedup _)
    have h3 : List.Pairwise (fun a b : Int => a ≤ b ∧ a ≠ b)
        (List.insertionSort (· ≤ ·) (nextMonths df).dedup) := List.Pairwise.and hs hnd
    exact h3.imp fun {a b} hab => lt_iff_le_and_ne.mpr hab
  · intro df m c
    rw [monthly]
    simp only [List.mem_map]
    constructor
    · rintro ⟨m', hm', heq⟩
      cases heq
      have hms : m ∈ nextMonths df := by
        have := ((List.perm_insertionSort (· ≤ ·) (nextMonths df).dedup).mem_iff).mp hm'
        exact List.mem_dedup.mp this
      exact ⟨List.count_pos_iff.mpr hms, count_nextMonths df _⟩
    · rintro ⟨hc, rfl⟩
      refine ⟨m, ?_, by rw [count_nextMonths]⟩
      have hms : m ∈ nextMonths df := by
        rw [← count_nextMonths] at hc
        exact List.count_pos_iff.mp hc
      exact ((List.perm_insertionSort (· ≤ ·) (nextMonths df).dedup).mem_iff).mpr
        (List.mem_dedup.mpr hms)

/-- Witness for C8 at the concrete scenario table: its month keys are
strictly increasing and the 2024-07 bucket holds exactly the two July
records. -/
theorem monthly_aggregation_spec_witness :
    List.Pairwise (· < ·) ((monthly aggDf).map Prod.fst) ∧
    ((daysFromCivil 2024 7 1, 2) ∈ monthly aggDf ↔
      0 < 2 ∧ 2 = aggDf.countP (inMonth (daysFromCivil 2024 7 1))) :=
  ⟨monthly_aggregation_spec.1 aggDf,
   monthly_aggregation_spec.2.1 aggDf (daysFromCivil 2024 7 1) 2⟩

end HomePPR
